import Mathlib

/-!
Verification of the multi-person ROI tracking core of the MultiSOCIAL toolbox
(`pose.py`, class `PoseProcessor`).

The Python code is shallowly embedded as follows.

* Pixel coordinates are integers (`ℤ`); Python floats appearing in the
  geometry helpers are modelled as exact rationals (`ℚ`); the only genuinely
  irrational quantities (`np.sqrt` in the assignment-cost computation) are
  modelled over the reals (`ℝ`) with `Real.sqrt`.
* `int(x)` in Python truncates toward zero; this is `pyInt` below.
* The external collaborators are modelled as oracles:
  the per-region MediaPipe estimator as a function from slot index to an
  `EstOutcome` (what `roi["pose"].process(cropped)` does on this frame),
  the YOLO person detector as a `DetOutcome`
  (what `self.yolo.predict(image_rgb, size=640)` does on this frame), and
  scipy's `linear_sum_assignment` as an arbitrary function `assign` from the
  cost matrix and its dimensions to a list of (row, column) pairs.
* A Python exception that escapes `_process_multiperson_frame` is modelled by
  the step returning `none`; normal completion returns `some` of the
  outputs and of the updated ROI list.
* A freshly constructed `mp.solutions.pose.Pose(...)` instance is modelled by
  a handle drawn from a counter threaded through the functions, so that
  "fresh instance" is expressible as "handle not used before".
-/

namespace Pose

/-- An axis-aligned pixel box (x1, y1, x2, y2), as stored in an ROI dict or
returned (after `.int().tolist()`) by the detector. -/
structure Box where
  x1 : ℤ
  y1 : ℤ
  x2 : ℤ
  y2 : ℤ
deriving DecidableEq, Repr

/-- One MediaPipe landmark; the tracking step rewrites `x` and `y` only. -/
structure Landmark where
  x : ℚ
  y : ℚ
  z : ℚ
  visibility : ℚ
deriving DecidableEq, Repr

/-- One entry of `locked_rois`: the dict
with keys x1, y1, x2, y2, lost, overlap_streak, pose. The `pose` field is the
handle of the estimator instance owned by this slot. -/
structure ROI where
  box : Box
  lost : ℕ
  streak : ℕ
  pose : ℕ
deriving DecidableEq, Repr

/-- One row of the detector output `results.xyxy[0]`: box (`b[:4]`, already
truncated to integers), confidence `b[4]` (never read by the core), and class
id `b[5]`. -/
structure Det where
  box : Box
  conf : ℚ
  cls : ℤ
deriving DecidableEq, Repr

/-- Python `int(q)`: truncation toward zero, written with floors so that it
evaluates well. -/
def pyInt (q : ℚ) : ℤ := if q < 0 then -⌊-q⌋ else ⌊q⌋

/-- The `frame_threshold=10` and `smooth_alpha = 0.5` fields of
`PoseProcessor.__init__`. -/
structure TrackerConfig where
  frameThreshold : ℕ
  smoothAlpha : ℚ
deriving DecidableEq, Repr

/-- The default `PoseProcessor` configuration: `frame_threshold=10`,
`self.smooth_alpha = 0.5`. -/
def defaultConfig : TrackerConfig := ⟨10, 1/2⟩

/-- The `_roi_center` method: `(0.5*(x1+x2), 0.5*(y1+y2))`. -/
def roiCenter (b : Box) : ℚ × ℚ :=
  ((1/2 : ℚ) * ((b.x1 : ℚ) + (b.x2 : ℚ)), (1/2 : ℚ) * ((b.y1 : ℚ) + (b.y2 : ℚ)))

/-- The quantity `max(0, ax2 - ax1) * max(0, ay2 - ay1)` of `_iou`. -/
def boxArea (b : Box) : ℤ := max 0 (b.x2 - b.x1) * max 0 (b.y2 - b.y1)

/-- The intersection area computed by `_iou`. -/
def interArea (a b : Box) : ℤ :=
  max 0 (min a.x2 b.x2 - max a.x1 b.x1) * max 0 (min a.y2 b.y2 - max a.y1 b.y1)

/-- The `_iou` method: intersection over union, 0.0 when the union area is
not positive. -/
def iou (a b : Box) : ℚ :=
  let union : ℤ := boxArea a + boxArea b - interArea a b
  if union ≤ 0 then 0 else (interArea a b : ℚ) / (union : ℚ)

/-- The `_expand_and_clip_bbox` method: grow the box by `margin` of its width
and height on each side, clip to the frame, nudge a collapsed far edge, and
truncate to integers.  The degenerate branch (`bw <= 0 or bh <= 0`) returns
the input clipped to bounds unmodified. -/
def expandAndClipBbox (x1 y1 x2 y2 : ℤ) (w h : ℤ) (margin : ℚ) : Box :=
  let bw : ℚ := max 0 ((x2 : ℚ) - (x1 : ℚ))
  let bh : ℚ := max 0 ((y2 : ℚ) - (y1 : ℚ))
  if bw ≤ 0 ∨ bh ≤ 0 then
    ⟨max 0 (min (w - 1) x1), max 0 (min (h - 1) y1), max 0 (min w x2), max 0 (min h y2)⟩
  else
    let mw := bw * margin
    let mh := bh * margin
    let ex1 : ℚ := max 0 (min ((x1 : ℚ) - mw) ((w : ℚ) - 1))
    let ey1 : ℚ := max 0 (min ((y1 : ℚ) - mh) ((h : ℚ) - 1))
    let ex2 : ℚ := max 0 (min ((x2 : ℚ) + mw) ((w : ℚ) - 0))
    let ey2 : ℚ := max 0 (min ((y2 : ℚ) + mh) ((h : ℚ) - 0))
    let fx2 : ℚ := if ex2 ≤ ex1 then min ((w : ℚ) * 1) (ex1 + 1) else ex2
    let fy2 : ℚ := if ey2 ≤ ey1 then min ((h : ℚ) * 1) (ey1 + 1) else ey2
    ⟨pyInt ex1, pyInt ey1, pyInt fx2, pyInt fy2⟩

/-- The `_smooth_box` method: per-coordinate EMA, truncated to integers. -/
def smoothBox (old new : Box) (alpha : ℚ) : Box :=
  ⟨pyInt (alpha * (new.x1 : ℚ) + (1 - alpha) * (old.x1 : ℚ)),
   pyInt (alpha * (new.y1 : ℚ) + (1 - alpha) * (old.y1 : ℚ)),
   pyInt (alpha * (new.x2 : ℚ) + (1 - alpha) * (old.x2 : ℚ)),
   pyInt (alpha * (new.y2 : ℚ) + (1 - alpha) * (old.y2 : ℚ))⟩

/-- What `roi["pose"].process(cropped)` does on this frame for a given slot
index: `procRaise` models the call raising an exception, `noLandmarks`
models a result with no `pose_landmarks`, and `hit lms mapOk` models a result
with landmarks `lms`, where `mapOk = false` models an exception raised inside
the coordinate-remapping `try` block (lines 93-100 of `pose.py`). -/
inductive EstOutcome where
  | procRaise : EstOutcome
  | noLandmarks : EstOutcome
  | hit : List Landmark → Bool → EstOutcome
deriving DecidableEq, Repr

/-- What `self.yolo.predict(image_rgb, size=640)` does on this frame:
`predictRaise` models the call raising an exception, `boxes` the returned
rows of `results.xyxy[0]`. -/
inductive DetOutcome where
  | predictRaise : DetOutcome
  | boxes : List Det → DetOutcome
deriving DecidableEq, Repr

/-- The filter `person_boxes = [b[:4].int().tolist() for b in boxes if int(b[5]) == 0]`. -/
def personBoxes (dets : List Det) : List Box :=
  (dets.filter (fun d => d.cls == 0)).map Det.box

/-- The coordinate remap applied to one landmark of a hit in region `b`:
`lmk.x = (lmk.x * (x2e - x1e) + x1e) / image_width` and analogously for y;
`z` and `visibility` are left untouched. -/
def mapLandmark (b : Box) (w h : ℤ) (lm : Landmark) : Landmark :=
  { lm with
    x := (lm.x * ((b.x2 : ℚ) - (b.x1 : ℚ)) + (b.x1 : ℚ)) / (w : ℚ),
    y := (lm.y * ((b.y2 : ℚ) - (b.y1 : ℚ)) + (b.y1 : ℚ)) / (h : ℚ) }

/-- The per-ROI tracking loop of `_process_multiperson_frame`
(lines 86-104): run each slot's estimator on its crop; on a hit reset
`lost` to 0 and emit the remapped landmarks (unless the remap block raises,
which is swallowed); on a miss increment `lost` and record the slot index in
`rois_needing_reseed` when `lost` has reached the threshold.  Returns `none`
when an estimator `process` call raises (the exception propagates). -/
def trackRois (est : ℕ → EstOutcome) (w h : ℤ) (th : ℕ) :
    ℕ → List ROI → Option (List (ℕ × List Landmark) × List ROI × List ℕ)
  | _, [] => some ([], [], [])
  | i, roi :: rest =>
    match est i with
    | .procRaise => none
    | .hit lms mapOk =>
      match trackRois est w h th (i + 1) rest with
      | none => none
      | some (outs, rois, need) =>
        some ((if mapOk then (i, lms.map (mapLandmark roi.box w h)) :: outs else outs),
              { roi with lost := 0 } :: rois, need)
    | .noLandmarks =>
      match trackRois est w h th (i + 1) rest with
      | none => none
      | some (outs, rois, need) =>
        some (outs, { roi with lost := roi.lost + 1 } :: rois,
              (if th ≤ roi.lost + 1 then i :: need else need))

/-- The boxes of the healthy ROIs (`lost == 0`), in list order
(lines 113-114). -/
def healthyBoxes (rois : List ROI) : List Box :=
  (rois.filter (fun r => r.lost == 0)).map ROI.box

/-- The detection filter of the reseed step (lines 115-125): keep a person
box only if its IoU with every healthy ROI box is below 0.5. -/
def filteredBoxes (healthy : List Box) (pbs : List Box) : List Box :=
  pbs.filter (fun b => healthy.all (fun hb => decide (iou b hb < 1/2)))

/-- Placeholder box for out-of-range list reads (which the composed pipeline
never performs). -/
def dfltBox : Box := ⟨0, 0, 0, 0⟩

/-- Placeholder ROI for out-of-range list reads (which the composed pipeline
never performs). -/
def dfltROI : ROI := ⟨dfltBox, 0, 0, 0⟩

/-- The diagonal `np.sqrt(image_width * image_width + image_height * image_height)`
(line 136). -/
noncomputable def frameDiag (w h : ℤ) : ℝ :=
  Real.sqrt ((w * w + h * h : ℤ) : ℝ)

/-- One entry of the blended cost matrix (lines 139-147):
`dist_norm + lambda_iou * (1.0 - iou_val)` with `lambda_iou = 0.5` and
`dist_norm = sqrt(dx*dx + dy*dy) / max(1e-6, diag)`. -/
noncomputable def costEntry (w h : ℤ) (rbox dbox : Box) : ℝ :=
  let c := roiCenter rbox
  let d := roiCenter dbox
  let dx : ℚ := d.1 - c.1
  let dy : ℚ := d.2 - c.2
  Real.sqrt ((dx * dx + dy * dy : ℚ) : ℝ) / max (1 / 1000000 : ℝ) (frameDiag w h)
    + (1 / 2 : ℝ) * (1 - ((iou rbox dbox : ℚ) : ℝ))

/-- The full cost matrix `cost[i, j]`, built from the post-tracking ROI list,
the `rois_needing_reseed` indices and the filtered detection boxes. -/
noncomputable def costMatrix (w h : ℤ) (rois : List ROI) (needing : List ℕ)
    (filtered : List Box) (i j : ℕ) : ℝ :=
  costEntry w h ((rois.getD (needing.getD i 0) dfltROI).box) (filtered.getD j dfltBox)

/-- Processing of one matched pair `(r_i, c_j)` of the assignment
(lines 155-179): bounds check, cost gating against `0.08 * diag`, expansion
and clipping of the detection box, the final IoU-conflict check against the
healthy boxes, and, when all pass, smoothing of the new box against the
slot's current box, installation of the smoothed box, replacement of the
slot's estimator by a fresh instance and reset of `lost` to 0.  The state is
the current ROI list together with the next fresh estimator handle; the cost
matrix reads the ROI list as it was when the matrix was built (`rois0`). -/
noncomputable def applyPair (w h : ℤ) (alpha : ℚ) (healthy : List Box)
    (rois0 : List ROI) (needing : List ℕ) (filtered : List Box)
    (st : List ROI × ℕ) (pair : ℕ × ℕ) : List ROI × ℕ :=
  if pair.1 < needing.length ∧ pair.2 < filtered.length then
    if costMatrix w h rois0 needing filtered pair.1 pair.2 ≤ (2 / 25 : ℝ) * frameDiag w h then
      let idx := needing.getD pair.1 0
      let db := filtered.getD pair.2 dfltBox
      let nb := expandAndClipBbox db.x1 db.y1 db.x2 db.y2 w h (1/4)
      if healthy.any (fun hb => decide ((1/2 : ℚ) ≤ iou nb hb)) then st
      else
        let roi := st.1.getD idx dfltROI
        let sb := smoothBox roi.box nb alpha
        (st.1.set idx ⟨sb, 0, roi.streak, st.2⟩, st.2 + 1)
    else st
  else st

/-- The reseed step of `_process_multiperson_frame` (lines 106-179): a no-op
unless some slot needs reseed; otherwise run the detector once (an exception
propagates, modelled by `none`), filter out detections reserved by healthy
ROIs, and, if any detections remain, apply the assignment produced by the
`assign` oracle (scipy's `linear_sum_assignment`) pair by pair. -/
noncomputable def reseedStep (det : DetOutcome)
    (assign : (ℕ → ℕ → ℝ) → ℕ → ℕ → List (ℕ × ℕ))
    (w h : ℤ) (alpha : ℚ) (rois : List ROI) (needing : List ℕ) (fresh : ℕ) :
    Option (List ROI × ℕ) :=
  if needing = [] then some (rois, fresh)
  else
    match det with
    | .predictRaise => none
    | .boxes dets =>
      let healthy := healthyBoxes rois
      let filtered := filteredBoxes healthy (personBoxes dets)
      if filtered = [] then some (rois, fresh)
      else
        let pairs := assign (costMatrix w h rois needing filtered) needing.length filtered.length
        some (pairs.foldl (applyPair w h alpha healthy rois needing filtered) (rois, fresh))

/-- The body of the deduplication double loop for one compared pair `(i, j)`
(lines 191-210): skip if `j` is already marked for removal; on overlap above
0.55 increment both streaks and, when both updated streaks reach 3, mark the
slot with the larger `lost` (ties mark `i`); otherwise reset both streaks. -/
def dedupPairStep (i j : ℕ) (st : List ROI × List ℕ) : List ROI × List ℕ :=
  if j ∈ st.2 then st
  else
    let ri := st.1.getD i dfltROI
    let rj := st.1.getD j dfltROI
    if (11/20 : ℚ) < iou ri.box rj.box then
      let rois := (st.1.set i { ri with streak := ri.streak + 1 }).set j
        { rj with streak := rj.streak + 1 }
      if 3 ≤ ri.streak + 1 ∧ 3 ≤ rj.streak + 1 then
        (rois, (if rj.lost ≤ ri.lost then i else j) :: st.2)
      else (rois, st.2)
    else ((st.1.set i { ri with streak := 0 }).set j { rj with streak := 0 }, st.2)

/-- The deduplication double loop (lines 186-210): for `i` in `range(n)`,
skip `i` when already marked for removal, else compare it with every later
unmarked `j`. -/
def dedupScan (rois : List ROI) : List ROI × List ℕ :=
  let n := rois.length
  (List.range n).foldl
    (fun st i =>
      if i ∈ st.2 then st
      else ((List.range n).drop (i + 1)).foldl (fun st2 j => dedupPairStep i j st2) st)
    (rois, [])

/-- The deduplication pass (lines 184-215): run the scan and, when any slot
was marked, compact the list by dropping the marked indices. -/
def dedupStep (rois : List ROI) : List ROI :=
  let res := dedupScan rois
  if res.2 = [] then res.1
  else (res.1.enum.filter (fun p => decide (p.1 ∉ res.2))).map Prod.snd

/-- The method `_process_multiperson_frame`: early return on an empty ROI list, then
tracking, reseed and deduplication.  `none` models a Python exception
escaping the call; otherwise the result carries the emitted
`(person_id, landmarks)` outputs, the updated ROI list, and the fresh-handle
counter.  The `self._frame_counter += 1` of line 182 is omitted: that counter
only feeds the periodic maintenance tasks, which are disabled
(`_reassign_period = 0`, and `_spawn_period` is never read in this file). -/
noncomputable def processMultipersonFrame (cfg : TrackerConfig)
    (est : ℕ → EstOutcome) (det : DetOutcome)
    (assign : (ℕ → ℕ → ℝ) → ℕ → ℕ → List (ℕ × ℕ)) (w h : ℤ)
    (rois : List ROI) (fresh : ℕ) :
    Option (List (ℕ × List Landmark) × List ROI × ℕ) :=
  if rois = [] then some ([], [], fresh)
  else
    match trackRois est w h cfg.frameThreshold 0 rois with
    | none => none
    | some (outs, rois1, needing) =>
      match reseedStep det assign w h cfg.smoothAlpha rois1 needing fresh with
      | none => none
      | some (rois2, fresh2) => some (outs, dedupStep rois2, fresh2)

/-- A single seeded ROI (line 71): expanded and clipped box, `lost = 0`,
`overlap_streak = 0`, and a freshly constructed estimator instance. -/
def mkSeedROI (w h : ℤ) (m : ℚ) (b : Box) (handle : ℕ) : ROI :=
  ⟨expandAndClipBbox b.x1 b.y1 b.x2 b.y2 w h m, 0, 0, handle⟩

/-- The seeding loop of `_seed_rois_if_needed` (lines 68-71), starting from
an empty list: one new ROI per person box, in detector order, each with the
next fresh estimator handle. -/
def seedAppend (w h : ℤ) (m : ℚ) : List Box → ℕ → List ROI
  | [], _ => []
  | b :: bs, fresh => mkSeedROI w h m b fresh :: seedAppend w h m bs (fresh + 1)

/-- The method `_seed_rois_if_needed`: when the ROI list is empty, run the detector once
(`none` models its exception propagating) and append one ROI per person box;
otherwise do nothing.  The last component counts how many times
`self.yolo.predict` was executed during the call (the call site at line 65
runs exactly once when the list is empty, zero times otherwise).  The
unconditional `self._ensure_yolo()` of line 63 — lazy loading of the
detector model, whose failure the code turns into a `RuntimeError` for the
caller — is outside the model: it performs no detection. -/
def seedRoisIfNeeded (det : DetOutcome) (w h : ℤ) (m : ℚ)
    (rois : List ROI) (fresh : ℕ) : Option (List ROI × ℕ × ℕ) :=
  if rois = [] then
    match det with
    | .predictRaise => none
    | .boxes dets =>
      some (seedAppend w h m (personBoxes dets) fresh,
            fresh + (personBoxes dets).length, 1)
  else some (rois, fresh, 0)

/-- The estimator oracle of a frame on which every region misses
(`process` returns no landmarks for every slot). -/
def estMiss : ℕ → EstOutcome := fun _ => EstOutcome.noLandmarks

/-- The ROI list and fresh-handle counter after `n` further frames, each
processed by `_process_multiperson_frame` with the same per-frame oracles;
`none` models an exception escaping one of the frames. -/
noncomputable def roisAfter (cfg : TrackerConfig) (est : ℕ → EstOutcome)
    (det : DetOutcome) (assign : (ℕ → ℕ → ℝ) → ℕ → ℕ → List (ℕ × ℕ))
    (w h : ℤ) : ℕ → List ROI × ℕ → Option (List ROI × ℕ)
  | 0, st => some st
  | n + 1, st =>
    match processMultipersonFrame cfg est det assign w h st.1 st.2 with
    | none => none
    | some (_, r, f) => roisAfter cfg est det assign w h n (r, f)

/-- A frame on which both members of a two-ROI tracker miss (below the reseed
threshold) and overlap above 0.55: both `lost` counters and both streaks are
incremented, and nothing is dropped while the updated streaks are below 3. -/
theorem twoRoiMissStep (cfg : TrackerConfig) (det : DetOutcome)
    (assign : (ℕ → ℕ → ℝ) → ℕ → ℕ → List (ℕ × ℕ)) (w h : ℤ) (a b : ROI) (fresh : ℕ)
    (hla : a.lost + 1 < cfg.frameThreshold) (hlb : b.lost + 1 < cfg.frameThreshold)
    (hiou : (11/20 : ℚ) < iou a.box b.box)
    (hstreak : ¬ (3 ≤ a.streak + 1 ∧ 3 ≤ b.streak + 1)) :
    processMultipersonFrame cfg estMiss det assign w h [a, b] fresh
      = some ([], [⟨a.box, a.lost + 1, a.streak + 1, a.pose⟩,
                   ⟨b.box, b.lost + 1, b.streak + 1, b.pose⟩], fresh) := by
  have hstreak2 : ¬ (2 ≤ a.streak ∧ 2 ≤ b.streak) := by omega
  simp [processMultipersonFrame, trackRois, estMiss, Nat.not_le.mpr hla, Nat.not_le.mpr hlb,
    reseedStep, dedupStep, dedupScan, dedupPairStep, List.range_succ, hiou, hstreak2]

/-- A frame on which both members of a two-ROI tracker miss and overlap above
0.55 while both updated streaks reach 3: the slot with the larger `lost`
(here the second) is dropped. -/
theorem twoRoiMissDropStep (cfg : TrackerConfig) (det : DetOutcome)
    (assign : (ℕ → ℕ → ℝ) → ℕ → ℕ → List (ℕ × ℕ)) (w h : ℤ) (a b : ROI) (fresh : ℕ)
    (hla : a.lost + 1 < cfg.frameThreshold) (hlb : b.lost + 1 < cfg.frameThreshold)
    (hiou : (11/20 : ℚ) < iou a.box b.box)
    (hsa : 3 ≤ a.streak + 1) (hsb : 3 ≤ b.streak + 1)
    (hdrop : ¬ (b.lost ≤ a.lost)) :
    processMultipersonFrame cfg estMiss det assign w h [a, b] fresh
      = some ([], [⟨a.box, a.lost + 1, a.streak + 1, a.pose⟩], fresh) := by
  have hsa2 : 2 ≤ a.streak := by omega
  have hsb2 : 2 ≤ b.streak := by omega
  simp [processMultipersonFrame, trackRois, estMiss, Nat.not_le.mpr hla, Nat.not_le.mpr hlb,
    reseedStep, dedupStep, dedupScan, dedupPairStep, List.range_succ, hiou, hsa2, hsb2, hdrop,
    List.enum, List.enumFrom, List.filter]

/-- Claim C4: in the deduplication pass, each compared pair of ROIs whose IoU
exceeds 0.55 has both slots' `overlap_streak` incremented, and otherwise both
reset to 0; when both members of an overlapping pair have updated
`overlap_streak` at least 3, the slot with the larger `lost_count` is marked
for removal (a tie marks the first index).  Consequently a tracker holding
exactly two ROIs whose IoU exceeds 0.55, tracked through three consecutive
frames (all misses, below the reseed threshold), retains exactly one ROI
after the third frame, and the survivor is the one with the strictly smaller
`lost_count`. -/
theorem c4_dedup_streak_and_convergence :
    (∀ (i j : ℕ) (st : List ROI × List ℕ), j ∉ st.2 →
      (((11/20 : ℚ) < iou (st.1.getD i dfltROI).box (st.1.getD j dfltROI).box →
        dedupPairStep i j st =
          ((st.1.set i { st.1.getD i dfltROI with
              streak := (st.1.getD i dfltROI).streak + 1 }).set j
            { st.1.getD j dfltROI with streak := (st.1.getD j dfltROI).streak + 1 },
           if 3 ≤ (st.1.getD i dfltROI).streak + 1 ∧ 3 ≤ (st.1.getD j dfltROI).streak + 1 then
             (if (st.1.getD j dfltROI).lost ≤ (st.1.getD i dfltROI).lost then i else j) :: st.2
           else st.2))
       ∧ (iou (st.1.getD i dfltROI).box (st.1.getD j dfltROI).box ≤ (11/20 : ℚ) →
        dedupPairStep i j st =
          ((st.1.set i { st.1.getD i dfltROI with streak := 0 }).set j
            { st.1.getD j dfltROI with streak := 0 }, st.2))))
    ∧ (∀ (cfg : TrackerConfig) (det : DetOutcome)
        (assign : (ℕ → ℕ → ℝ) → ℕ → ℕ → List (ℕ × ℕ)) (w h : ℤ)
        (ba bb : Box) (la lb pa pb fresh : ℕ),
        (11/20 : ℚ) < iou ba bb → la < lb → lb + 3 < cfg.frameThreshold →
        roisAfter cfg estMiss det assign w h 3 ([⟨ba, la, 0, pa⟩, ⟨bb, lb, 0, pb⟩], fresh)
          = some ([⟨ba, la + 3, 3, pa⟩], fresh)) := by
  constructor
  · intro i j st hj
    constructor
    · intro hgt
      rw [dedupPairStep, if_neg hj, if_pos hgt]
      by_cases hs : 3 ≤ (st.1.getD i dfltROI).streak + 1 ∧ 3 ≤ (st.1.getD j dfltROI).streak + 1
      · rw [if_pos hs, if_pos hs]
      · rw [if_neg hs, if_neg hs]
    · intro hle
      rw [dedupPairStep, if_neg hj, if_neg (not_lt.mpr hle)]
  · intro cfg det assign w h ba bb la lb pa pb fresh hiou hab hth
    have e1 := twoRoiMissStep cfg det assign w h ⟨ba, la, 0, pa⟩ ⟨bb, lb, 0, pb⟩ fresh
      (by simp; omega) (by simp; omega) (by simpa using hiou) (by simp)
    have e2 := twoRoiMissStep cfg det assign w h ⟨ba, la + 1, 0 + 1, pa⟩
      ⟨bb, lb + 1, 0 + 1, pb⟩ fresh
      (by simp; omega) (by simp; omega) (by simpa using hiou) (by simp)
    have e3 := twoRoiMissDropStep cfg det assign w h ⟨ba, la + 1 + 1, 0 + 1 + 1, pa⟩
      ⟨bb, lb + 1 + 1, 0 + 1 + 1, pb⟩ fresh
      (by simp; omega) (by simp; omega) (by simpa using hiou) (by simp) (by simp)
      (by simp; omega)
    simp only [show (3:ℕ) = 2 + 1 from rfl, show (2:ℕ) = 1 + 1 from rfl, roisAfter]
    rw [e1]
    simp only [roisAfter]
    rw [e2]
    simp only [roisAfter]
    rw [e3]

/-- Concrete instantiation of C4: a pair at IoU 0.9 with streaks already at 2
gets both streaks incremented to 3 and the larger-`lost` slot (the first)
marked; and a two-ROI tracker with `lost` counts 0 and 1, overlapping at IoU
0.9 through three miss frames, ends with exactly the smaller-`lost` ROI. -/
theorem c4_dedup_streak_and_convergence_witness :
    dedupPairStep 0 1 ([⟨⟨0,0,10,10⟩,3,2,0⟩, ⟨⟨0,0,10,9⟩,1,2,1⟩], []) =
      ([⟨⟨0,0,10,10⟩,3,3,0⟩, ⟨⟨0,0,10,9⟩,1,3,1⟩], [0])
    ∧ roisAfter defaultConfig estMiss (DetOutcome.boxes []) (fun _ _ _ => []) 100 100 3
        ([⟨⟨0,0,10,10⟩,0,0,0⟩, ⟨⟨0,0,10,9⟩,1,0,1⟩], 7) = some ([⟨⟨0,0,10,10⟩,3,3,0⟩], 7) := by
  constructor
  · have h := (c4_dedup_streak_and_convergence.1 0 1
      ([⟨⟨0,0,10,10⟩,3,2,0⟩, ⟨⟨0,0,10,9⟩,1,2,1⟩], []) (by simp)).1
      (by norm_num [iou, interArea, boxArea])
    simpa using h
  · exact c4_dedup_streak_and_convergence.2 defaultConfig (DetOutcome.boxes [])
      (fun _ _ _ => []) 100 100 ⟨0,0,10,10⟩ ⟨0,0,10,9⟩ 0 1 0 1 7
      (by norm_num [iou, interArea, boxArea]) (by norm_num)
      (by norm_num [defaultConfig])

/-- Claim C1: the clipping invariant `0 ≤ x1 < x2 ≤ frame_w` and
`0 ≤ y1 < y2 ≤ frame_h` fails on `_expand_and_clip_bbox` (contradicting the
function's own docstring, which promises `nx1 < nx2 and ny1 < ny2`): the
positive-area box (-2, 0, 0, 10) in a 100 by 100 frame with margin 0.25 is
mapped to (0, 0, 0, 12), whose x-edges coincide, and a degenerate input box
(5, 5, 5, 5) is returned unchanged. -/
theorem c1_expand_and_clip_invariant_fails :
    (expandAndClipBbox (-2) 0 0 10 100 100 (1/4) = ⟨0, 0, 0, 12⟩
      ∧ ¬ ((expandAndClipBbox (-2) 0 0 10 100 100 (1/4)).x1
            < (expandAndClipBbox (-2) 0 0 10 100 100 (1/4)).x2))
    ∧ (expandAndClipBbox 5 5 5 5 100 100 (1/4) = ⟨5, 5, 5, 5⟩
      ∧ ¬ ((expandAndClipBbox 5 5 5 5 100 100 (1/4)).x1
            < (expandAndClipBbox 5 5 5 5 100 100 (1/4)).x2)) := by
  norm_num [expandAndClipBbox, pyInt]

/-- The intersection area of `_iou` is symmetric in its arguments. -/
theorem interArea_comm (a b : Box) : interArea a b = interArea b a := by
  unfold interArea
  rw [min_comm a.x2 b.x2, max_comm a.x1 b.x1, min_comm a.y2 b.y2, max_comm a.y1 b.y1]

/-- The intersection area of `_iou` is nonnegative. -/
theorem interArea_nonneg (a b : Box) : 0 ≤ interArea a b :=
  mul_nonneg (le_max_left 0 _) (le_max_left 0 _)

/-- The method `_iou` never returns a negative value. -/
theorem iou_nonneg (a b : Box) : 0 ≤ iou a b := by
  unfold iou
  by_cases hu : boxArea a + boxArea b - interArea a b ≤ 0
  · simp [hu]
  · simp only [hu, if_false]
    apply div_nonneg
    · exact_mod_cast interArea_nonneg a b
    · exact_mod_cast le_of_lt (not_le.mp hu)

/-- Claim C9, counterexample: `iou(a, a)` is not `1.0` for every box `a`; for
the degenerate box (0, 0, 0, 0) the union area is 0 and `_iou` returns 0.0. -/
theorem c9_iou_self_degenerate_counterexample :
    ¬ (iou ⟨0, 0, 0, 0⟩ ⟨0, 0, 0, 0⟩ = 1) ∧ iou ⟨0, 0, 0, 0⟩ ⟨0, 0, 0, 0⟩ = 0 := by
  norm_num [iou, interArea, boxArea]

/-- Claim C9 (amended): `_iou` is symmetric, returns 0.0 whenever the union
area is not positive, returns 0.0 for every pair of disjoint boxes, and
satisfies `iou(a, a) = 1.0` for every box `a` of positive area (for a
zero-area box, `iou(a, a) = 0.0`). -/
theorem c9_iou_algebra :
    (∀ a b : Box, iou a b = iou b a)
    ∧ (∀ a b : Box, boxArea a + boxArea b - interArea a b ≤ 0 → iou a b = 0)
    ∧ (∀ a b : Box, (min a.x2 b.x2 ≤ max a.x1 b.x1 ∨ min a.y2 b.y2 ≤ max a.y1 b.y1) →
        iou a b = 0)
    ∧ (∀ a : Box, 0 < boxArea a → iou a a = 1) := by
  refine ⟨?_, ?_, ?_, ?_⟩
  · intro a b
    unfold iou
    rw [interArea_comm a b, add_comm (boxArea a) (boxArea b)]
  · intro a b hu
    simp [iou, hu]
  · intro a b hdisj
    have hI : interArea a b = 0 := by
      rcases hdisj with hx | hy
      · unfold interArea
        rw [max_eq_left (sub_nonpos.mpr hx), zero_mul]
      · unfold interArea
        rw [max_eq_left (sub_nonpos.mpr hy), mul_zero]
    unfold iou
    rw [hI]
    simp
  · intro a ha
    have hIA : interArea a a = boxArea a := by
      simp [interArea, boxArea]
    unfold iou
    rw [hIA]
    have hsum : boxArea a + boxArea a - boxArea a = boxArea a := by ring
    rw [hsum, if_neg (not_le.mpr ha)]
    exact div_self (by exact_mod_cast ha.ne')

/-- Concrete instantiation of C9's amended statement: symmetry on a sample
pair, 0.0 on a pair with union area 0, 0.0 on a disjoint pair, and 1.0 on the
self-IoU of a positive-area box. -/
theorem c9_iou_algebra_witness :
    iou ⟨0, 0, 2, 3⟩ ⟨1, 1, 5, 5⟩ = iou ⟨1, 1, 5, 5⟩ ⟨0, 0, 2, 3⟩
    ∧ iou ⟨0, 0, 0, 0⟩ ⟨2, 2, 2, 2⟩ = 0
    ∧ iou ⟨0, 0, 1, 1⟩ ⟨3, 0, 4, 1⟩ = 0
    ∧ iou ⟨0, 0, 1, 1⟩ ⟨0, 0, 1, 1⟩ = 1 :=
  ⟨c9_iou_algebra.1 ⟨0, 0, 2, 3⟩ ⟨1, 1, 5, 5⟩,
   c9_iou_algebra.2.1 ⟨0, 0, 0, 0⟩ ⟨2, 2, 2, 2⟩ (by decide),
   c9_iou_algebra.2.2.1 ⟨0, 0, 1, 1⟩ ⟨3, 0, 4, 1⟩ (by decide),
   c9_iou_algebra.2.2.2 ⟨0, 0, 1, 1⟩ (by decide)⟩

/-- Claim C2, counterexample: with a single ROI whose estimator `process`
call raises, `_process_multiperson_frame` raises (returns no result) instead
of counting a miss and continuing; likewise, when a slot needs reseed and the
detector `predict` call raises, the whole step raises instead of treating it
as no detections. -/
theorem c2_error_propagation_counterexample :
    processMultipersonFrame defaultConfig (fun _ => EstOutcome.procRaise)
      (DetOutcome.boxes []) (fun _ _ _ => []) 100 100 [⟨⟨0, 0, 10, 10⟩, 0, 0, 0⟩] 0 = none
    ∧ processMultipersonFrame defaultConfig estMiss DetOutcome.predictRaise
      (fun _ _ _ => []) 100 100 [⟨⟨0, 0, 10, 10⟩, 9, 0, 0⟩] 0 = none := by
  constructor
  · simp [processMultipersonFrame, trackRois]
  · simp [processMultipersonFrame, trackRois, estMiss, reseedStep, defaultConfig]

/-- Claim C2 (amended): an exception from a region's estimator `process` call
propagates out of the tracking loop and out of the per-frame step uncaught
(no retry, no `lost_count` update for that region, later regions not
processed); an exception from the detector `predict` call during a reseed
likewise propagates out of the reseed step.  Only a failure inside the
landmark-remapping block of a hit is swallowed: the region's `lost_count` is
still reset to 0 but its output is dropped. -/
theorem c2_error_propagation_amended :
    (∀ (est : ℕ → EstOutcome) (w h : ℤ) (th i : ℕ) (roi : ROI) (rest : List ROI),
      est i = EstOutcome.procRaise → trackRois est w h th i (roi :: rest) = none)
    ∧ (∀ (cfg : TrackerConfig) (est : ℕ → EstOutcome) (det : DetOutcome)
        (assign : (ℕ → ℕ → ℝ) → ℕ → ℕ → List (ℕ × ℕ)) (w h : ℤ)
        (roi : ROI) (rest : List ROI) (fresh : ℕ),
        est 0 = EstOutcome.procRaise →
        processMultipersonFrame cfg est det assign w h (roi :: rest) fresh = none)
    ∧ (∀ (assign : (ℕ → ℕ → ℝ) → ℕ → ℕ → List (ℕ × ℕ)) (w h : ℤ) (alpha : ℚ)
        (rois : List ROI) (needing : List ℕ) (fresh : ℕ),
        needing ≠ [] →
        reseedStep DetOutcome.predictRaise assign w h alpha rois needing fresh = none)
    ∧ (∀ (est : ℕ → EstOutcome) (w h : ℤ) (th i : ℕ) (roi : ROI) (rest : List ROI)
        (lms : List Landmark),
        est i = EstOutcome.hit lms false →
        trackRois est w h th i (roi :: rest)
          = (trackRois est w h th (i + 1) rest).map
              (fun r => (r.1, { roi with lost := 0 } :: r.2.1, r.2.2))) := by
  refine ⟨?_, ?_, ?_, ?_⟩
  · intro est w h th i roi rest hest
    simp [trackRois, hest]
  · intro cfg est det assign w h roi rest fresh hest
    simp [processMultipersonFrame, trackRois, hest]
  · intro assign w h alpha rois needing fresh hne
    simp [reseedStep, hne]
  · intro est w h th i roi rest lms hest
    cases hrec : trackRois est w h th (i + 1) rest with
    | none => simp [trackRois, hest, hrec]
    | some v => simp [trackRois, hest, hrec]

/-- Concrete instantiation of C2's amended statement. -/
theorem c2_error_propagation_amended_witness :
    trackRois (fun _ => EstOutcome.procRaise) 100 100 10 0 [dfltROI] = none
    ∧ processMultipersonFrame defaultConfig (fun _ => EstOutcome.procRaise)
        (DetOutcome.boxes []) (fun _ _ _ => []) 100 100 [dfltROI] 3 = none
    ∧ reseedStep DetOutcome.predictRaise (fun _ _ _ => []) 100 100 (1/2) [] [0] 3 = none
    ∧ trackRois (fun _ => EstOutcome.hit [] false) 100 100 10 0 [dfltROI]
        = (trackRois (fun _ => EstOutcome.hit [] false) 100 100 10 1 []).map
            (fun r => (r.1, { dfltROI with lost := 0 } :: r.2.1, r.2.2)) :=
  ⟨c2_error_propagation_amended.1 _ 100 100 10 0 dfltROI [] rfl,
   c2_error_propagation_amended.2.1 defaultConfig _ (DetOutcome.boxes [])
     (fun _ _ _ => []) 100 100 dfltROI [] 3 rfl,
   c2_error_propagation_amended.2.2.1 (fun _ _ _ => []) 100 100 (1/2) [] [0] 3 (by simp),
   c2_error_propagation_amended.2.2.2 _ 100 100 10 0 dfltROI [] [] rfl⟩

/-- Claim C5: in the per-frame tracking step, a hit (the estimator returns
landmarks and the remap block completes) resets the slot's `lost_count` to 0,
remaps every landmark by `full_x = (local_x * region_width + region_x1) /
frame_width` (analogously for y, with z and visibility untouched) and emits
`(slot_index, landmarks)`; a miss increments `lost_count` and records the
slot as needing reseed exactly when the incremented `lost_count` has reached
the threshold, whose default is 10. -/
theorem c5_tracking_hit_miss :
    (∀ (est : ℕ → EstOutcome) (w h : ℤ) (th i : ℕ) (roi : ROI) (rest : List ROI)
      (lms : List Landmark),
      est i = EstOutcome.hit lms true →
      trackRois est w h th i (roi :: rest)
        = (trackRois est w h th (i + 1) rest).map
            (fun r => ((i, lms.map (mapLandmark roi.box w h)) :: r.1,
                       { roi with lost := 0 } :: r.2.1, r.2.2)))
    ∧ (∀ (b : Box) (w h : ℤ) (lm : Landmark),
        (mapLandmark b w h lm).x = (lm.x * ((b.x2 : ℚ) - (b.x1 : ℚ)) + (b.x1 : ℚ)) / (w : ℚ)
        ∧ (mapLandmark b w h lm).y = (lm.y * ((b.y2 : ℚ) - (b.y1 : ℚ)) + (b.y1 : ℚ)) / (h : ℚ)
        ∧ (mapLandmark b w h lm).z = lm.z
        ∧ (mapLandmark b w h lm).visibility = lm.visibility)
    ∧ (∀ (est : ℕ → EstOutcome) (w h : ℤ) (th i : ℕ) (roi : ROI) (rest : List ROI),
        est i = EstOutcome.noLandmarks →
        trackRois est w h th i (roi :: rest)
          = (trackRois est w h th (i + 1) rest).map
              (fun r => (r.1, { roi with lost := roi.lost + 1 } :: r.2.1,
                         if th ≤ roi.lost + 1 then i :: r.2.2 else r.2.2)))
    ∧ defaultConfig.frameThreshold = 10 := by
  refine ⟨?_, ?_, ?_, rfl⟩
  · intro est w h th i roi rest lms hest
    cases hrec : trackRois est w h th (i + 1) rest with
    | none => simp [trackRois, hest, hrec]
    | some v => simp [trackRois, hest, hrec]
  · intro b w h lm
    exact ⟨rfl, rfl, rfl, rfl⟩
  · intro est w h th i roi rest hest
    cases hrec : trackRois est w h th (i + 1) rest with
    | none => simp [trackRois, hest, hrec]
    | some v =>
      by_cases hth : th ≤ roi.lost + 1
      · simp [trackRois, hest, hrec, hth]
      · simp [trackRois, hest, hrec, hth]

/-- Concrete instantiation of C5: a hit on the only slot of a one-ROI tracker
and a miss that pushes `lost_count` to the default threshold. -/
theorem c5_tracking_hit_miss_witness :
    trackRois (fun _ => EstOutcome.hit [⟨1/2, 1/2, 0, 1⟩] true) 100 50 10 0
        [⟨⟨10, 10, 30, 50⟩, 4, 0, 0⟩]
      = (trackRois (fun _ => EstOutcome.hit [⟨1/2, 1/2, 0, 1⟩] true) 100 50 10 1 []).map
          (fun r => ((0, [⟨1/2, 1/2, 0, 1⟩].map (mapLandmark ⟨10, 10, 30, 50⟩ 100 50)) :: r.1,
                     { (⟨⟨10, 10, 30, 50⟩, 4, 0, 0⟩ : ROI) with lost := 0 } :: r.2.1, r.2.2))
    ∧ (mapLandmark ⟨10, 10, 30, 50⟩ 100 50 ⟨1/2, 1/2, 0, 1⟩).x
        = ((1/2 : ℚ) * ((30 : ℚ) - (10 : ℚ)) + (10 : ℚ)) / (100 : ℚ)
    ∧ trackRois estMiss 100 50 10 0 [⟨⟨10, 10, 30, 50⟩, 9, 0, 0⟩]
        = (trackRois estMiss 100 50 10 1 []).map
            (fun r => (r.1, { (⟨⟨10, 10, 30, 50⟩, 9, 0, 0⟩ : ROI) with lost := 9 + 1 } :: r.2.1,
                       if 10 ≤ 9 + 1 then 0 :: r.2.2 else r.2.2)) :=
  ⟨c5_tracking_hit_miss.1 _ 100 50 10 0 ⟨⟨10, 10, 30, 50⟩, 4, 0, 0⟩ [] [⟨1/2, 1/2, 0, 1⟩] rfl,
   (c5_tracking_hit_miss.2.1 ⟨10, 10, 30, 50⟩ 100 50 ⟨1/2, 1/2, 0, 1⟩).1,
   c5_tracking_hit_miss.2.2.1 estMiss 100 50 10 0 ⟨⟨10, 10, 30, 50⟩, 9, 0, 0⟩ [] rfl⟩

/-- Claim C3: during a reseed, a detection whose box has IoU at least 0.5
with some healthy ROI box never survives the pre-matrix filter; a matched
detection whose expanded-and-clipped box conflicts at IoU at least 0.5 with a
healthy ROI box is skipped by the final conflict check; and when every
person detection conflicts with some healthy ROI box, the reseed step leaves
the ROI list (and the estimator-handle counter) unchanged, so a stale slot is
never reseeded onto a reserved detection. -/
theorem c3_healthy_reservation :
    (∀ (healthy pbs : List Box) (b : Box), b ∈ filteredBoxes healthy pbs →
      ∀ hb ∈ healthy, iou b hb < 1/2)
    ∧ (∀ (w h : ℤ) (alpha : ℚ) (healthy : List Box) (rois0 : List ROI)
        (needing : List ℕ) (filtered : List Box) (st : List ROI × ℕ) (pair : ℕ × ℕ),
        (∃ hb ∈ healthy, (1/2 : ℚ) ≤ iou
          (expandAndClipBbox (filtered.getD pair.2 dfltBox).x1 (filtered.getD pair.2 dfltBox).y1
            (filtered.getD pair.2 dfltBox).x2 (filtered.getD pair.2 dfltBox).y2 w h (1/4)) hb) →
        applyPair w h alpha healthy rois0 needing filtered st pair = st)
    ∧ (∀ (dets : List Det) (assign : (ℕ → ℕ → ℝ) → ℕ → ℕ → List (ℕ × ℕ)) (w h : ℤ)
        (alpha : ℚ) (rois : List ROI) (needing : List ℕ) (fresh : ℕ),
        (∀ b ∈ personBoxes dets, ∃ hb ∈ healthyBoxes rois, (1/2 : ℚ) ≤ iou b hb) →
        reseedStep (DetOutcome.boxes dets) assign w h alpha rois needing fresh
          = some (rois, fresh)) := by
  refine ⟨?_, ?_, ?_⟩
  · intro healthy pbs b hmem hb hhb
    have h2 := (List.mem_filter.mp hmem).2
    have h3 := List.all_eq_true.mp h2 hb hhb
    exact of_decide_eq_true h3
  · intro w h alpha healthy rois0 needing filtered st pair hconf
    obtain ⟨hb, hhb, hge⟩ := hconf
    unfold applyPair
    by_cases h1 : pair.1 < needing.length ∧ pair.2 < filtered.length
    · rw [if_pos h1]
      by_cases h2 : costMatrix w h rois0 needing filtered pair.1 pair.2
          ≤ (2 / 25 : ℝ) * frameDiag w h
      · rw [if_pos h2, if_pos (List.any_eq_true.mpr ⟨hb, hhb, decide_eq_true hge⟩)]
      · rw [if_neg h2]
    · rw [if_neg h1]
  · intro dets assign w h alpha rois needing fresh hall
    by_cases hn : needing = []
    · simp [reseedStep, hn]
    · have hfil : filteredBoxes (healthyBoxes rois) (personBoxes dets) = [] := by
        rw [filteredBoxes, List.filter_eq_nil_iff]
        intro b hbmem
        obtain ⟨hb, hhbmem, hge⟩ := hall b hbmem
        intro habs
        have hlt := of_decide_eq_true (List.all_eq_true.mp habs hb hhbmem)
        linarith
      simp [reseedStep, hn, hfil]

/-- Concrete instantiation of C3, matching the spec's reservation scenario:
one healthy ROI overlapping the only detection at IoU 0.6, one stale slot
needing reseed — the stale slot keeps its bounds and its estimator. -/
theorem c3_healthy_reservation_witness :
    (∀ hb ∈ [(⟨0, 0, 10, 10⟩ : Box)], iou ⟨50, 50, 60, 60⟩ hb < 1/2)
    ∧ applyPair 100 100 (1/2) [⟨0, 0, 10, 10⟩] [] [1] [⟨0, 0, 10, 6⟩] ([], 5) (0, 0) = ([], 5)
    ∧ reseedStep (DetOutcome.boxes [⟨⟨0, 0, 10, 6⟩, 9/10, 0⟩]) (fun _ _ _ => []) 100 100 (1/2)
        [⟨⟨0, 0, 10, 10⟩, 0, 0, 0⟩, ⟨⟨50, 50, 60, 60⟩, 10, 0, 1⟩] [1] 5
        = some ([⟨⟨0, 0, 10, 10⟩, 0, 0, 0⟩, ⟨⟨50, 50, 60, 60⟩, 10, 0, 1⟩], 5) := by
  refine ⟨?_, ?_, ?_⟩
  · exact c3_healthy_reservation.1 [⟨0, 0, 10, 10⟩] [⟨50, 50, 60, 60⟩] ⟨50, 50, 60, 60⟩
      (by norm_num [filteredBoxes, List.filter_cons, iou, interArea, boxArea])
  · exact c3_healthy_reservation.2.1 100 100 (1/2) [⟨0, 0, 10, 10⟩] [] [1] [⟨0, 0, 10, 6⟩]
      ([], 5) (0, 0)
      ⟨⟨0, 0, 10, 10⟩, by simp,
       by norm_num [expandAndClipBbox, pyInt, iou, interArea, boxArea]⟩
  · refine c3_healthy_reservation.2.2 [⟨⟨0, 0, 10, 6⟩, 9/10, 0⟩] (fun _ _ _ => []) 100 100 (1/2)
      [⟨⟨0, 0, 10, 10⟩, 0, 0, 0⟩, ⟨⟨50, 50, 60, 60⟩, 10, 0, 1⟩] [1] 5 ?_
    intro b hbmem
    simp [personBoxes] at hbmem
    subst hbmem
    exact ⟨⟨0, 0, 10, 10⟩, by simp [healthyBoxes],
      by norm_num [iou, interArea, boxArea]⟩

/-- The tracking loop never changes the number of ROIs. -/
theorem trackRois_length (est : ℕ → EstOutcome) (w h : ℤ) (th : ℕ) (rois : List ROI) :
    ∀ (i : ℕ) (r : List (ℕ × List Landmark) × List ROI × List ℕ),
      trackRois est w h th i rois = some r → r.2.1.length = rois.length := by
  induction rois with
  | nil =>
    intro i r hr
    simp only [trackRois, Option.some.injEq] at hr
    simp [← hr]
  | cons roi rest ih =>
    intro i r hr
    simp only [trackRois] at hr
    cases hest : est i with
    | procRaise => rw [hest] at hr; simp at hr
    | hit lms mapOk =>
      rw [hest] at hr
      cases hrec : trackRois est w h th (i + 1) rest with
      | none => rw [hrec] at hr; simp at hr
      | some v =>
        rw [hrec] at hr
        simp only [Option.some.injEq] at hr
        rw [← hr]
        simp [ih (i + 1) v hrec]
    | noLandmarks =>
      rw [hest] at hr
      cases hrec : trackRois est w h th (i + 1) rest with
      | none => rw [hrec] at hr; simp at hr
      | some v =>
        rw [hrec] at hr
        simp only [Option.some.injEq] at hr
        rw [← hr]
        simp [ih (i + 1) v hrec]

/-- Applying one matched pair never changes the number of ROIs (it only
overwrites one slot in place). -/
theorem applyPair_length (w h : ℤ) (alpha : ℚ) (healthy : List Box) (rois0 : List ROI)
    (needing : List ℕ) (filtered : List Box) (st : List ROI × ℕ) (pair : ℕ × ℕ) :
    (applyPair w h alpha healthy rois0 needing filtered st pair).1.length = st.1.length := by
  simp only [applyPair]
  split_ifs <;> simp [List.length_set]

/-- Folding matched pairs never changes the number of ROIs. -/
theorem foldl_applyPair_length (w h : ℤ) (alpha : ℚ) (healthy : List Box) (rois0 : List ROI)
    (needing : List ℕ) (filtered : List Box) (pairs : List (ℕ × ℕ)) :
    ∀ st : List ROI × ℕ,
      (pairs.foldl (applyPair w h alpha healthy rois0 needing filtered) st).1.length
        = st.1.length := by
  induction pairs with
  | nil => intro st; rfl
  | cons p ps ih =>
    intro st
    rw [List.foldl_cons, ih]
    exact applyPair_length w h alpha healthy rois0 needing filtered st p

/-- The reseed step never changes the number of ROIs. -/
theorem reseedStep_length (det : DetOutcome)
    (assign : (ℕ → ℕ → ℝ) → ℕ → ℕ → List (ℕ × ℕ)) (w h : ℤ) (alpha : ℚ)
    (rois : List ROI) (needing : List ℕ) (fresh : ℕ) (r : List ROI × ℕ)
    (hr : reseedStep det assign w h alpha rois needing fresh = some r) :
    r.1.length = rois.length := by
  by_cases hn : needing = []
  · simp [reseedStep, hn] at hr
    rw [← hr]
  · cases det with
    | predictRaise => simp [reseedStep, hn] at hr
    | boxes dets =>
      by_cases hfil : filteredBoxes (healthyBoxes rois) (personBoxes dets) = []
      · simp [reseedStep, hn, hfil] at hr
        rw [← hr]
      · simp [reseedStep, hn, hfil] at hr
        rw [← hr]
        exact foldl_applyPair_length w h alpha _ rois needing _ _ (rois, fresh)

/-- One dedup pair comparison never changes the number of ROIs. -/
theorem dedupPairStep_length (i j : ℕ) (st : List ROI × List ℕ) :
    (dedupPairStep i j st).1.length = st.1.length := by
  simp only [dedupPairStep]
  split_ifs <;> simp [List.length_set]

/-- The inner dedup loop never changes the number of ROIs. -/
theorem foldl_dedupPairStep_length (i : ℕ) (js : List ℕ) :
    ∀ st : List ROI × List ℕ,
      (js.foldl (fun st2 j => dedupPairStep i j st2) st).1.length = st.1.length := by
  induction js with
  | nil => intro st; rfl
  | cons j js ih =>
    intro st
    rw [List.foldl_cons, ih]
    exact dedupPairStep_length i j st

/-- The outer dedup loop, over any index list and any per-index inner index
list, never changes the number of ROIs. -/
theorem foldl_dedupOuter_length (g : ℕ → List ℕ) (idxs : List ℕ) :
    ∀ st : List ROI × List ℕ,
      (idxs.foldl (fun st i => if i ∈ st.2 then st
        else (g i).foldl (fun st2 j => dedupPairStep i j st2) st) st).1.length
        = st.1.length := by
  induction idxs with
  | nil => intro st; rfl
  | cons i is ih =>
    intro st
    rw [List.foldl_cons, ih]
    by_cases hi : i ∈ st.2
    · rw [if_pos hi]
    · rw [if_neg hi]
      exact foldl_dedupPairStep_length i _ st

/-- The dedup scan never changes the number of ROIs (only the compaction
afterwards does). -/
theorem dedupScan_length (rois : List ROI) : (dedupScan rois).1.length = rois.length :=
  foldl_dedupOuter_length (fun i => (List.range rois.length).drop (i + 1))
    (List.range rois.length) (rois, [])

/-- The deduplication pass never increases the number of ROIs. -/
theorem dedupStep_length_le (rois : List ROI) : (dedupStep rois).length ≤ rois.length := by
  unfold dedupStep
  by_cases hrem : (dedupScan rois).2 = []
  · rw [if_pos hrem]
    exact le_of_eq (dedupScan_length rois)
  · rw [if_neg hrem, List.length_map]
    calc ((dedupScan rois).1.enum.filter _).length
        ≤ (dedupScan rois).1.enum.length := List.length_filter_le _ _
      _ = (dedupScan rois).1.length := List.enum_length
      _ = rois.length := dedupScan_length rois

/-- Claim C8: seeding on a non-empty ROI list is a no-op (the detector is not
even run), and `_process_multiperson_frame` never returns more ROIs than it
was given — the reseed path only replaces slots in place and deduplication
only removes slots — so a new person entering mid-video while others are
tracked is never given a new slot. -/
theorem c8_roi_count_never_grows :
    (∀ (det : DetOutcome) (w h : ℤ) (m : ℚ) (rois : List ROI) (fresh : ℕ),
      rois ≠ [] → seedRoisIfNeeded det w h m rois fresh = some (rois, fresh, 0))
    ∧ (∀ (cfg : TrackerConfig) (est : ℕ → EstOutcome) (det : DetOutcome)
        (assign : (ℕ → ℕ → ℝ) → ℕ → ℕ → List (ℕ × ℕ)) (w h : ℤ)
        (rois : List ROI) (fresh : ℕ)
        (res : List (ℕ × List Landmark) × List ROI × ℕ),
        processMultipersonFrame cfg est det assign w h rois fresh = some res →
        res.2.1.length ≤ rois.length) := by
  constructor
  · intro det w h m rois fresh hne
    simp [seedRoisIfNeeded, hne]
  · intro cfg est det assign w h rois fresh res hres
    by_cases hn : rois = []
    · simp [processMultipersonFrame, hn] at hres
      simp [← hres, hn]
    · simp only [processMultipersonFrame, if_neg hn] at hres
      cases htr : trackRois est w h cfg.frameThreshold 0 rois with
      | none => rw [htr] at hres; simp at hres
      | some v =>
        rw [htr] at hres
        obtain ⟨outs, rois1, needing⟩ := v
        dsimp only at hres
        cases hrs : reseedStep det assign w h cfg.smoothAlpha rois1 needing fresh with
        | none => rw [hrs] at hres; simp at hres
        | some r =>
          rw [hrs] at hres
          obtain ⟨rois2, fresh2⟩ := r
          dsimp only at hres
          obtain rfl : (outs, dedupStep rois2, fresh2) = res := Option.some.inj hres
          calc (dedupStep rois2).length
              ≤ rois2.length := dedupStep_length_le rois2
            _ = rois1.length := reseedStep_length det assign w h cfg.smoothAlpha
                rois1 needing fresh (rois2, fresh2) hrs
            _ = rois.length := trackRois_length est w h cfg.frameThreshold rois 0
                (outs, rois1, needing) htr

/-- Concrete instantiation of C8: seeding is a no-op on a one-ROI tracker,
and a one-ROI miss frame returns one ROI (not more). -/
theorem c8_roi_count_never_grows_witness :
    seedRoisIfNeeded (DetOutcome.boxes []) 100 100 (1/4) [dfltROI] 5 = some ([dfltROI], 5, 0)
    ∧ (([], [(⟨⟨0, 0, 10, 10⟩, 1, 0, 0⟩ : ROI)], 5) :
        List (ℕ × List Landmark) × List ROI × ℕ).2.1.length
        ≤ [(⟨⟨0, 0, 10, 10⟩, 0, 0, 0⟩ : ROI)].length :=
  ⟨c8_roi_count_never_grows.1 (DetOutcome.boxes []) 100 100 (1/4) [dfltROI] 5 (by simp),
   c8_roi_count_never_grows.2 defaultConfig estMiss (DetOutcome.boxes []) (fun _ _ _ => [])
     100 100 [⟨⟨0, 0, 10, 10⟩, 0, 0, 0⟩] 5 ([], [⟨⟨0, 0, 10, 10⟩, 1, 0, 0⟩], 5)
     (by simp [processMultipersonFrame, trackRois, estMiss, reseedStep, defaultConfig,
       dedupStep, dedupScan, dedupPairStep, List.range_succ])⟩

/-- The seeding loop appends one ROI per box, giving the k-th box the k-th
fresh estimator handle. -/
theorem seedAppend_eq_mapIdx (w h : ℤ) (m : ℚ) (bs : List Box) :
    ∀ fresh : ℕ, seedAppend w h m bs fresh
      = bs.mapIdx (fun k b => mkSeedROI w h m b (fresh + k)) := by
  induction bs with
  | nil => intro fresh; simp [seedAppend]
  | cons b bs ih =>
    intro fresh
    rw [seedAppend, List.mapIdx_cons, ih (fresh + 1)]
    refine congrArg₂ _ (by rw [Nat.add_zero]) ?_
    refine congrArg₂ _ ?_ rfl
    funext k b'
    rw [show fresh + 1 + k = fresh + (k + 1) by omega]

/-- Claim C10: called with an empty ROI list, the seeding step runs the
person detector exactly once and appends, for every returned person-class
box in order, one ROI whose bounds are the box expanded by margin 0.25 and
clipped to the frame, with `lost_count = 0`, `overlap_streak = 0`, and a
freshly constructed estimator instance (the k-th new ROI receives the k-th
fresh handle, so all handles are new and pairwise distinct). -/
theorem c10_seeding_contract (dets : List Det) (w h : ℤ) (fresh : ℕ) :
    seedRoisIfNeeded (DetOutcome.boxes dets) w h (1/4) [] fresh
      = some ((personBoxes dets).mapIdx (fun k b =>
          ⟨expandAndClipBbox b.x1 b.y1 b.x2 b.y2 w h (1/4), 0, 0, fresh + k⟩),
          fresh + (personBoxes dets).length, 1) := by
  simp only [seedRoisIfNeeded, if_pos rfl]
  rw [seedAppend_eq_mapIdx]
  rfl

/-- The assignment cost as the specification words it (section 4.4 of the
spec): normalized center distance, `euclidean(center_a, center_b)` divided by
the frame diagonal, plus `0.5 * (1 - IoU(slot_box, detection_box))`.  Stated
from the spec, to be compared with `costEntry`, which is translated from the
code. -/
noncomputable def specAssignCost (w h : ℤ) (rbox dbox : Box) : ℝ :=
  Real.sqrt (((((roiCenter rbox).1 - (roiCenter dbox).1 : ℚ)) : ℝ) ^ 2
      + ((((roiCenter rbox).2 - (roiCenter dbox).2 : ℚ)) : ℝ) ^ 2) / frameDiag w h
    + (1 / 2 : ℝ) * (1 - ((iou rbox dbox : ℚ) : ℝ))

/-- The frame diagonal is at least 1 on any frame of positive size, hence
above the `1e-6` guard. -/
theorem one_le_frameDiag (w h : ℤ) (hw : 1 ≤ w) (hh : 1 ≤ h) :
    (1 : ℝ) ≤ frameDiag w h := by
  rw [frameDiag, show (1 : ℝ) = Real.sqrt 1 from Real.sqrt_one.symm]
  apply Real.sqrt_le_sqrt
  have hw' : (1 : ℝ) ≤ (w : ℝ) := by exact_mod_cast hw
  have hh' : (1 : ℝ) ≤ (h : ℝ) := by exact_mod_cast hh
  push_cast
  nlinarith

/-- Claim C6: on any frame of positive size, each cost-matrix entry equals
the spec's formula (center distance over the diagonal plus half of one minus
the IoU — the code's `max(1e-6, diag)` guard is inactive there); and a
matched pair whose cost exceeds `0.08 * diag` is rejected: the pair
application leaves the ROI list and handle counter unchanged. -/
theorem c6_cost_formula_and_gate :
    (∀ (w h : ℤ) (rbox dbox : Box), 1 ≤ w → 1 ≤ h →
      costEntry w h rbox dbox = specAssignCost w h rbox dbox)
    ∧ (∀ (w h : ℤ) (alpha : ℚ) (healthy : List Box) (rois0 : List ROI)
        (needing : List ℕ) (filtered : List Box) (st : List ROI × ℕ) (pair : ℕ × ℕ),
        (2 / 25 : ℝ) * frameDiag w h < costMatrix w h rois0 needing filtered pair.1 pair.2 →
        applyPair w h alpha healthy rois0 needing filtered st pair = st) := by
  constructor
  · intro w h rbox dbox hw hh
    have hmax : max (1 / 1000000 : ℝ) (frameDiag w h) = frameDiag w h :=
      max_eq_right (le_trans (by norm_num) (one_le_frameDiag w h hw hh))
    simp only [costEntry, specAssignCost, hmax]
    have harg : ((((roiCenter dbox).1 - (roiCenter rbox).1)
          * ((roiCenter dbox).1 - (roiCenter rbox).1)
          + ((roiCenter dbox).2 - (roiCenter rbox).2)
          * ((roiCenter dbox).2 - (roiCenter rbox).2) : ℚ) : ℝ)
        = ((((roiCenter rbox).1 - (roiCenter dbox).1 : ℚ)) : ℝ) ^ 2
          + ((((roiCenter rbox).2 - (roiCenter dbox).2 : ℚ)) : ℝ) ^ 2 := by
      push_cast
      ring
    rw [harg]
  · intro w h alpha healthy rois0 needing filtered st pair hgt
    unfold applyPair
    by_cases h1 : pair.1 < needing.length ∧ pair.2 < filtered.length
    · rw [if_pos h1, if_neg (not_le.mpr hgt)]
    · rw [if_neg h1]

/-- Concrete instantiation of C6: the cost formula on a 100 by 100 frame, and
a gate rejection on a 1 by 1 frame where the only candidate pair has cost 0.5
while `0.08 * diag` is about 0.11. -/
theorem c6_cost_formula_and_gate_witness :
    costEntry 100 100 ⟨0, 0, 10, 10⟩ ⟨2, 2, 12, 12⟩
      = specAssignCost 100 100 ⟨0, 0, 10, 10⟩ ⟨2, 2, 12, 12⟩
    ∧ applyPair 1 1 (1/2) [] [⟨⟨0, 0, 2, 2⟩, 0, 0, 0⟩] [0] [⟨1, 1, 1, 1⟩]
        ([⟨⟨0, 0, 2, 2⟩, 0, 0, 0⟩], 5) (0, 0) = ([⟨⟨0, 0, 2, 2⟩, 0, 0, 0⟩], 5) := by
  constructor
  · exact c6_cost_formula_and_gate.1 100 100 ⟨0, 0, 10, 10⟩ ⟨2, 2, 12, 12⟩
      (by norm_num) (by norm_num)
  · refine c6_cost_formula_and_gate.2 1 1 (1/2) [] [⟨⟨0, 0, 2, 2⟩, 0, 0, 0⟩] [0]
      [⟨1, 1, 1, 1⟩] ([⟨⟨0, 0, 2, 2⟩, 0, 0, 0⟩], 5) (0, 0) ?_
    have hmat : costMatrix 1 1 [⟨⟨0, 0, 2, 2⟩, 0, 0, 0⟩] [0] [⟨1, 1, 1, 1⟩] 0 0
        = (1 / 2 : ℝ) := by
      simp only [costMatrix, costEntry, List.getD, dfltROI, dfltBox]
      norm_num [roiCenter, iou, interArea, boxArea, Real.sqrt_zero]
    have hdiag : frameDiag 1 1 = Real.sqrt 2 := by
      rw [frameDiag]
      norm_num
    rw [hmat, hdiag]
    have h2 : Real.sqrt 2 < 25 / 4 := (Real.sqrt_lt' (by norm_num)).mpr (by norm_num)
    nlinarith [Real.sqrt_nonneg (2 : ℝ)]

/-- A box lying inside the frame, edges ordered. -/
def boxInFrame (b : Box) (w h : ℤ) : Prop :=
  0 ≤ b.x1 ∧ b.x1 ≤ b.x2 ∧ b.x2 ≤ w ∧ 0 ≤ b.y1 ∧ b.y1 ≤ b.y2 ∧ b.y2 ≤ h

instance (b : Box) (w h : ℤ) : Decidable (boxInFrame b w h) := by
  unfold boxInFrame
  infer_instance

/-- The center of a box lying inside the frame lies inside the frame. -/
theorem roiCenter_mem_frame (b : Box) (w h : ℤ) (hb : boxInFrame b w h) :
    0 ≤ (roiCenter b).1 ∧ (roiCenter b).1 ≤ (w : ℚ)
    ∧ 0 ≤ (roiCenter b).2 ∧ (roiCenter b).2 ≤ (h : ℚ) := by
  obtain ⟨h1, h2, h3, h4, h5, h6⟩ := hb
  have a1 : (0 : ℚ) ≤ (b.x1 : ℚ) := by exact_mod_cast h1
  have a2 : (b.x1 : ℚ) ≤ (b.x2 : ℚ) := by exact_mod_cast h2
  have a3 : (b.x2 : ℚ) ≤ (w : ℚ) := by exact_mod_cast h3
  have a4 : (0 : ℚ) ≤ (b.y1 : ℚ) := by exact_mod_cast h4
  have a5 : (b.y1 : ℚ) ≤ (b.y2 : ℚ) := by exact_mod_cast h5
  have a6 : (b.y2 : ℚ) ≤ (h : ℚ) := by exact_mod_cast h6
  refine ⟨?_, ?_, ?_, ?_⟩ <;> simp only [roiCenter] <;> nlinarith

/-- Claim C7: on any frame whose diagonal is at least 19, the cost of any
pair of in-frame boxes is at most 1.5, which is at most `0.08 * diag`;
consequently every cost-matrix entry built from in-frame boxes passes the
gate, which therefore rejects no matched pair on such frames. -/
theorem c7_gate_vacuous_on_realistic_frames :
    (∀ (w h : ℤ) (rb db : Box), (19 : ℝ) ≤ frameDiag w h →
      boxInFrame rb w h → boxInFrame db w h →
      costEntry w h rb db ≤ 3 / 2
      ∧ (3 / 2 : ℝ) ≤ (2 / 25 : ℝ) * frameDiag w h
      ∧ costEntry w h rb db ≤ (2 / 25 : ℝ) * frameDiag w h)
    ∧ (∀ (w h : ℤ) (rois0 : List ROI) (needing : List ℕ) (filtered : List Box) (i j : ℕ),
        (19 : ℝ) ≤ frameDiag w h →
        boxInFrame (rois0.getD (needing.getD i 0) dfltROI).box w h →
        boxInFrame (filtered.getD j dfltBox) w h →
        costMatrix w h rois0 needing filtered i j ≤ (2 / 25 : ℝ) * frameDiag w h) := by
  have main : ∀ (w h : ℤ) (rb db : Box), (19 : ℝ) ≤ frameDiag w h →
      boxInFrame rb w h → boxInFrame db w h →
      costEntry w h rb db ≤ 3 / 2
      ∧ (3 / 2 : ℝ) ≤ (2 / 25 : ℝ) * frameDiag w h
      ∧ costEntry w h rb db ≤ (2 / 25 : ℝ) * frameDiag w h := by
    intro w h rb db h19 hrb hdb
    have hd0 : (0 : ℝ) < frameDiag w h := lt_of_lt_of_le (by norm_num) h19
    have hmax : max (1 / 1000000 : ℝ) (frameDiag w h) = frameDiag w h :=
      max_eq_right (le_trans (by norm_num) h19)
    obtain ⟨c1, c2, c3, c4⟩ := roiCenter_mem_frame rb w h hrb
    obtain ⟨d1, d2, d3, d4⟩ := roiCenter_mem_frame db w h hdb
    have hq : ((roiCenter db).1 - (roiCenter rb).1) * ((roiCenter db).1 - (roiCenter rb).1)
        + ((roiCenter db).2 - (roiCenter rb).2) * ((roiCenter db).2 - (roiCenter rb).2)
        ≤ ((w : ℚ) * w + h * h) := by nlinarith
    have hsq : Real.sqrt ((((roiCenter db).1 - (roiCenter rb).1)
          * ((roiCenter db).1 - (roiCenter rb).1)
          + ((roiCenter db).2 - (roiCenter rb).2)
          * ((roiCenter db).2 - (roiCenter rb).2) : ℚ) : ℝ) ≤ frameDiag w h := by
      rw [frameDiag]
      apply Real.sqrt_le_sqrt
      push_cast
      exact_mod_cast hq
    have hiou : (0 : ℝ) ≤ ((iou rb db : ℚ) : ℝ) := by exact_mod_cast iou_nonneg rb db
    have hcost : costEntry w h rb db ≤ 3 / 2 := by
      simp only [costEntry, hmax]
      have ht1 : Real.sqrt ((((roiCenter db).1 - (roiCenter rb).1)
            * ((roiCenter db).1 - (roiCenter rb).1)
            + ((roiCenter db).2 - (roiCenter rb).2)
            * ((roiCenter db).2 - (roiCenter rb).2) : ℚ) : ℝ) / frameDiag w h ≤ 1 :=
        (div_le_one hd0).mpr hsq
      nlinarith
    refine ⟨hcost, by linarith, le_trans hcost (by linarith)⟩
  constructor
  · exact main
  · intro w h rois0 needing filtered i j h19 hrb hdb
    exact (main w h _ _ h19 hrb hdb).2.2

/-- Concrete instantiation of C7 on a 100 by 100 frame (diagonal about
141.4). -/
theorem c7_gate_vacuous_witness :
    costEntry 100 100 ⟨0, 0, 10, 10⟩ ⟨20, 20, 30, 40⟩ ≤ 3 / 2
    ∧ (3 / 2 : ℝ) ≤ (2 / 25 : ℝ) * frameDiag 100 100
    ∧ costEntry 100 100 ⟨0, 0, 10, 10⟩ ⟨20, 20, 30, 40⟩
        ≤ (2 / 25 : ℝ) * frameDiag 100 100 := by
  have h19 : (19 : ℝ) ≤ frameDiag 100 100 := by
    have : frameDiag 100 100 = Real.sqrt 20000 := by rw [frameDiag]; norm_num
    rw [this]
    exact (Real.le_sqrt' (by norm_num)).mpr (by norm_num)
  exact c7_gate_vacuous_on_realistic_frames.1 100 100 ⟨0, 0, 10, 10⟩ ⟨20, 20, 30, 40⟩
    h19 (by decide) (by decide)

end Pose
